import Mathlib

/-!
# Verification of the serum-vial distribution worker (`src/minion.ts`)

This file gives a shallow embedding of the Minion worker implemented in
`src/minion.ts` and proves properties of its components:

* the per-connection fixed-window rate limiter (`RateLimit`),
* the subscription-request validator (`_validateRequestPayload`),
* the data-ingestion entry point (`processMessage`) together with the
  snapshot caches and the per-symbol recent-trades ring buffer,
* the subscription control-message handler (`_handleSubscriptionRequest`),
* the two HTTP read endpoints (`_listRecentTrades`, `_listMarkets`).

Modelling conventions:

* TypeScript plain-object maps keyed by symbol strings (`{ [symbol: string]: T }`)
  are embedded as functions `String → Option T`; a missing key is `none`
  (JavaScript `undefined`).
* Machine side effects on a WebSocket connection (`ws.send`, `ws.subscribe`,
  `ws.unsubscribe`, `ws.end`) and on an HTTP response (`writeHeader`,
  `writeStatus`, `end`) are recorded as explicit effect lists; the handlers
  are pure functions from their inputs to the list of effects performed, in
  order, plus the updated worker state where the source mutates it.
* `JSON.stringify` of the structured control responses is a host builtin;
  outbound control messages are therefore kept in structured form
  (`OutMessage`), while data payloads — which the worker forwards verbatim,
  never re-serializing — stay raw strings, exactly as in the source.
* Timestamps (`new Date().toISOString()`) are wall-clock values irrelevant to
  every claim and are omitted from the structured messages.
* `CHANNELS`, `MESSAGE_TYPES_PER_CHANNEL` (from `./consts`) and the helpers
  `getDidYouMean` / `getAllowedValuesText` (from `./helpers`) are imported by
  `minion.ts` but their sources are not part of this repository snapshot;
  the embedding is parametric in them (the channel table is a parameter
  `requestedTypesOf`, the market registry a parameter `marketNames`, and the
  validator reports structured `ValidationError` values from which the
  source renders its error strings).
-/

namespace SerumVial

/-! ## Ring buffer (`CircularBuffer` from `./helpers`)

Modelled from the spec: the `CircularBuffer` class imported from `./helpers`
is not under `src/`; the spec describes it as a "per-symbol fixed-capacity
(100) ring buffer of serialized trade payloads, oldest evicted on overflow"
and, in the glossary, a "fixed-capacity FIFO-eviction store".  We represent
it by its capacity and its contents in insertion order (oldest first);
`append` adds at the back and evicts from the front on overflow, and
`items` reads the contents oldest-first. -/

structure CircularBuffer (α : Type) where
  capacity : Nat
  buf : List α
deriving Repr, DecidableEq

namespace CircularBuffer

/-- `new CircularBuffer(capacity)`: an empty buffer. -/
def empty (α : Type) (capacity : Nat) : CircularBuffer α :=
  ⟨capacity, []⟩

/-- Modelled from the spec: append one value at the back, evicting the
oldest entries so that at most `capacity` values remain. -/
def append {α : Type} (b : CircularBuffer α) (x : α) : CircularBuffer α :=
  let grown := b.buf ++ [x]
  ⟨b.capacity, grown.drop (grown.length - b.capacity)⟩

/-- The buffer contents in insertion order, oldest first
(the `items()` generator). -/
def items {α : Type} (b : CircularBuffer α) : List α :=
  b.buf

/-- Append a whole list of values in order. -/
def appendAll {α : Type} (b : CircularBuffer α) (xs : List α) : CircularBuffer α :=
  xs.foldl append b

end CircularBuffer

/-! ## Rate limiter (`RateLimit`, minion.ts lines 34–49)

`RateLimit(limit, interval)` keeps a process-wide window counter `now`
(incremented once per `interval` by a timer) and stores on each connection
object two hidden fields `ws[last]` and `ws[count]`.  The returned closure
is called once per inbound message and returns `true` when the message must
be rate-limited (rejected).  We embed the per-connection hidden fields as a
state record; `last = none` models a connection on which the closure has
never run (`ws[last]` is `undefined`, and `undefined != now` for every
numeric `now`). -/

structure RateLimitState where
  last : Option Nat
  count : Nat
deriving Repr, DecidableEq

/-- The state of a fresh connection: both hidden fields unset. -/
def RateLimitState.fresh : RateLimitState := ⟨none, 0⟩

/-- One call of the closure returned by `RateLimit(limit, interval)`, at
global window `now`.  Returns `(limited, newState)` where `limited = true`
means the message is rejected.  Mirrors:
`if (ws[last] != now) { ws[last] = now; ws[count] = 1; return false }`
`else { return ++ws[count] > limit }`. -/
def rateLimitCall (limit : Nat) (now : Nat) (ws : RateLimitState) :
    Bool × RateLimitState :=
  if ws.last ≠ some now then
    (false, ⟨some now, 1⟩)
  else
    (decide (ws.count + 1 > limit), ⟨ws.last, ws.count + 1⟩)

/-- Run a sequence of calls, given the global window at each call; returns
the list of per-call outcomes (`true` = rejected) and the final state. -/
def rateLimitRun (limit : Nat) : List Nat → RateLimitState → List Bool × RateLimitState
  | [], ws => ([], ws)
  | now :: rest, ws =>
    let step := rateLimitCall limit now ws
    let tail := rateLimitRun limit rest step.2
    (step.1 :: tail.1, tail.2)

/-- Number of accepted (non-limited) calls in a list of outcomes. -/
def acceptedCount (outcomes : List Bool) : Nat :=
  (outcomes.filter (fun b => b = false)).length

/-! ## Worker state and data ingestion (`processMessage`, lines 189–219) -/

/-- The mutable per-worker caches of `class Minion` (lines 65–69).
TypeScript maps keyed by symbol are embedded as `String → Option _`;
`recentTradesSerialized` stores `Option String` values and its lookup is
`none` both for a missing key and for an explicit `undefined` value, which
are indistinguishable to every read in the source. -/
structure MinionState where
  l2SnapshotsSerialized : String → Option String
  l3SnapshotsSerialized : String → Option String
  recentTrades : String → Option (CircularBuffer String)
  recentTradesSerialized : String → Option String
  quotesSerialized : String → Option String

/-- The worker state right after construction: all caches empty. -/
def MinionState.initial : MinionState :=
  ⟨fun _ => none, fun _ => none, fun _ => none, fun _ => none, fun _ => none⟩

/-- The shape of a data event (`MessageEnvelope` from `serum_producer`):
type, symbol, pre-serialized payload, timestamp, publish flag. -/
structure MessageEnvelope where
  type : String
  symbol : String
  payload : String
  timestamp : String
  publish : Bool
deriving Repr, DecidableEq

/-- A point update of a string-keyed map. -/
def setKey {α : Type} (m : String → Option α) (k : String) (v : Option α) :
    String → Option α :=
  fun s => if s = k then v else m s

/-- Effects `processMessage` performs on the transport. -/
inductive PublishEffect where
  | publish (topic : String) (payload : String)
deriving Repr, DecidableEq

/-- `processMessage(message)` (lines 189–219): update the snapshot caches
and the recent-trades buffer according to `message.type`, then publish to
topic `` `${message.type}/${message.symbol}` `` iff `message.publish`.
The four `if` statements of the source are kept as four independent
conditional updates; no step consults the market registry, so events for
unregistered symbols take the same (total, never-throwing) path. -/
def processMessage (st : MinionState) (message : MessageEnvelope) :
    MinionState × List PublishEffect :=
  let topic := message.type ++ "/" ++ message.symbol
  let st1 :=
    if message.type = "l2snapshot" then
      let m := setKey st.l2SnapshotsSerialized message.symbol (some message.payload)
      { st with l2SnapshotsSerialized := m }
    else st
  let st2 :=
    if message.type = "l3snapshot" then
      let m := setKey st1.l3SnapshotsSerialized message.symbol (some message.payload)
      { st1 with l3SnapshotsSerialized := m }
    else st1
  let st3 :=
    if message.type = "quote" then
      let m := setKey st2.quotesSerialized message.symbol (some message.payload)
      { st2 with quotesSerialized := m }
    else st2
  let st4 :=
    if message.type = "trade" then
      let buffer :=
        match st3.recentTrades message.symbol with
        | some b => b
        | none => CircularBuffer.empty String 100
      let mt := setKey st3.recentTrades message.symbol (some (buffer.append message.payload))
      let ms := setKey st3.recentTradesSerialized message.symbol none
      { st3 with recentTrades := mt, recentTradesSerialized := ms }
    else st3
  (st4, if message.publish then [.publish topic message.payload] else [])

/-! ## Subscription-request validation (`_validateRequestPayload`, lines 337–396)

The source parses the raw bytes with `JSON.parse` (a host builtin) and then
checks the fields of the resulting object.  The embedding takes the outcome
of the parse as input: `none` models bytes that are not valid JSON (the
`catch` branch), and `some payload` models a successfully parsed object
whose relevant fields are `op`, `channel` and `markets`; a `markets` field
that is not an array (`!Array.isArray(payload.markets)`) is modelled as
`markets = none`.  The source renders each failure as an error string built
with `getDidYouMean` / `getAllowedValuesText` (helpers whose source is not
in this snapshot); the embedding returns the structured error of the branch
taken instead of its rendered text. -/

/-- The two recognized operations.  Modelled from the spec: `OPS` is
imported from `./consts`, which is not under `src/`; the spec fixes it as
the "two recognized operations (`subscribe`, `unsubscribe`)". -/
def OPS : List String := ["subscribe", "unsubscribe"]

/-- A parsed subscription request (`SubRequest`).  `markets = none` models
a `markets` field that is not an array. -/
structure SubRequest where
  op : String
  channel : String
  markets : Option (List String)
deriving Repr, DecidableEq

/-- Structured validation failures, one per early-`return` branch of
`_validateRequestPayload` and `_validateMarketName` (§7 taxonomy). -/
inductive ValidationError where
  | invalidPayload
  | invalidOp (op : String)
  | invalidChannel (channel : String)
  | invalidMarketsArray
  | tooManyMarkets
  | invalidMarket (market : String)
deriving Repr, DecidableEq

/-- Result of `_validateRequestPayload`. -/
inductive ValidationResult where
  | invalid (error : ValidationError)
  | valid (request : SubRequest)
deriving Repr, DecidableEq

/-- `_validateRequestPayload(message)` (lines 337–396), parametric in the
market registry (`this._marketNames`) and in `CHANNELS` from `./consts`.
Checks run in source order with early returns: JSON parse, `op` against
`OPS`, `channel` against `CHANNELS`, `markets` a non-empty array, at most
40 markets, every market in the registry (first offender reported). -/
def validateRequestPayload (marketNames : List String) (channels : List String)
    (parsed : Option SubRequest) : ValidationResult :=
  match parsed with
  | none => .invalid .invalidPayload
  | some payload =>
    if ¬ payload.op ∈ OPS then
      .invalid (.invalidOp payload.op)
    else if ¬ payload.channel ∈ channels then
      .invalid (.invalidChannel payload.channel)
    else
      match payload.markets with
      | none => .invalid .invalidMarketsArray
      | some ms =>
        if ms.length = 0 then
          .invalid .invalidMarketsArray
        else if ms.length > 40 then
          .invalid .tooManyMarkets
        else
          match ms.find? (fun m => ¬ m ∈ marketNames) with
          | some m => .invalid (.invalidMarket m)
          | none => .valid payload

/-- `_validateMarketName(marketName)` (lines 319–335): `none` when the name
is in the registry, otherwise the structured form of the
`Invalid market name provided` error. -/
def validateMarketName (marketNames : List String) (marketName : String) :
    Option ValidationError :=
  if ¬ marketName ∈ marketNames then some (.invalidMarket marketName)
  else none

/-! ## Subscription control-message handler (`_handleSubscriptionRequest`,
lines 221–317)

The handler's observable behaviour on the originating connection is the
ordered list of `ws.*` calls it performs.  Outbound control messages are
kept structured (the source serializes them with `JSON.stringify`); cached
data payloads are sent verbatim as raw strings. -/

/-- Outbound WebSocket messages. -/
inductive OutMessage where
  /-- The rate-limit `error` response (fixed text naming the
  `MAX_MESSAGES_PER_SECOND = 50` limit). -/
  | rateLimitError
  /-- An `error` response carrying a validation failure. -/
  | validationError (error : ValidationError)
  /-- The confirmation `{type, channel, markets}` where `type` is
  `subscribed` when `op == 'subscribe'` and `unsubscribed` otherwise. -/
  | confirmation (op : String) (channel : String) (markets : List String)
  /-- A raw, pre-serialized data payload forwarded verbatim. -/
  | rawPayload (payload : String)
deriving Repr, DecidableEq

/-- Effects performed on the originating connection, in order. -/
inductive WsEffect where
  | send (message : OutMessage)
  | subscribeTopic (topic : String)
  | unsubscribeTopic (topic : String)
  /-- `ws.end(code, message)`: close the connection. -/
  | endConn (code : Nat) (message : String)
deriving Repr, DecidableEq

/-- The body of the per-`(type, market)` iteration of the subscription loop
(lines 273–301): on `subscribe`, subscribe to `` `${type}/${market}` `` and
then, for `quote` / `l2snapshot` / `l3snapshot` only, send the cached
serialized payload if one exists; on any other op (`unsubscribe`, after
validation), unsubscribe from the topic. -/
def perPairEffects (st : MinionState) (op : String) (type market : String) :
    List WsEffect :=
  let topic := type ++ "/" ++ market
  if op = "subscribe" then
    [WsEffect.subscribeTopic topic]
      ++ (if type = "quote" then
            match st.quotesSerialized market with
            | some quote => [WsEffect.send (.rawPayload quote)]
            | none => []
          else [])
      ++ (if type = "l2snapshot" then
            match st.l2SnapshotsSerialized market with
            | some l2Snapshot => [WsEffect.send (.rawPayload l2Snapshot)]
            | none => []
          else [])
      ++ (if type = "l3snapshot" then
            match st.l3SnapshotsSerialized market with
            | some l3Snapshot => [WsEffect.send (.rawPayload l3Snapshot)]
            | none => []
          else [])
  else
    [WsEffect.unsubscribeTopic topic]

/-- The full double loop of lines 271–303: for each requested type, for
each requested market, the per-pair effects. -/
def subscriptionLoopEffects (st : MinionState) (op : String)
    (requestedTypes : List String) (markets : List String) : List WsEffect :=
  requestedTypes.flatMap (fun type =>
    markets.flatMap (fun market => perPairEffects st op type market))

/-- The `try` body of `_handleSubscriptionRequest` (lines 223–308), given
the rate limiter's verdict for this message and the validation outcome of
its payload, parametric in `MESSAGE_TYPES_PER_CHANNEL` from `./consts`
(`requestedTypesOf`).  Produces the ordered effects on the connection:
a single error send on rate-limit or validation failure (connection left
open), otherwise the confirmation followed by the subscription loop. -/
def handleRequestOk (st : MinionState) (rateLimited : Bool)
    (validation : ValidationResult) (requestedTypesOf : String → List String) :
    List WsEffect :=
  if rateLimited then
    [WsEffect.send .rateLimitError]
  else
    match validation with
    | .invalid error => [WsEffect.send (.validationError error)]
    | .valid request =>
      let markets := request.markets.getD []
      WsEffect.send (.confirmation request.op request.channel markets)
        :: subscriptionLoopEffects st request.op (requestedTypesOf request.channel) markets

/-- The `try/catch` wrapper of `_handleSubscriptionRequest` (lines
222–316): a run of the body that raises an exception (`.error`) is caught
and answered by closing only this connection with code 1011 and a generic
message; a normal run's effects pass through unchanged.  (The inner
`try { ws.end } catch {}` swallows a failing close; no further effect
either way.) -/
def handleSubscriptionRequest (bodyRun : Except String (List WsEffect)) :
    List WsEffect :=
  match bodyRun with
  | .ok effects => effects
  | .error _ => [WsEffect.endConn 1011 "Subscription request internal error"]

/-! ## HTTP read endpoints (`_listRecentTrades` lines 109–135,
`_listMarkets` lines 140–182)

Each handler first registers `res.onAborted(() => { res.aborted = true })`.
The worker is a single-threaded event-driven unit (§5): the `onAborted`
callback can only run when the handler's synchronous run-to-completion
segment yields, i.e. before the handler is invoked (in which case the
transport does not invoke it at all for the already-aborted request) or at
an `await` point inside the handler.  `_listRecentTrades` contains no
`await` before its writes, so its whole body is one atomic segment in
which `res.aborted` is still `false`; `_listMarkets` awaits the market
metadata loads on a cache miss, and only there can `res.aborted` become
`true` before the final write.  The embeddings make the abort schedule
explicit as booleans, one per yield point. -/

/-- Atomic actions performed on an `HttpResponse`, in order. -/
inductive HttpAction where
  | writeHeader (name value : String)
  | writeStatus (status : String)
  /-- `res.end(body)`: the body is either `JSON.stringify({ error })` of a
  structured validation error, or a raw pre-serialized string. -/
  | endError (error : ValidationError)
  | endRaw (body : String)
deriving Repr, DecidableEq

/-- Lines 124–129: the serialized recent-trades array for a market — the
memoized form if set, otherwise `` `[${trades.join(',')}]` `` rebuilt from
the ring buffer (empty when no buffer exists yet). -/
def serializeRecentTrades (st : MinionState) (marketName : String) : String :=
  match st.recentTradesSerialized marketName with
  | some serialized => serialized
  | none =>
    let recentTrades :=
      match st.recentTrades marketName with
      | some buffer => buffer.items
      | none => []
    "[" ++ String.intercalate "," recentTrades ++ "]"

/-- The body of `_listRecentTrades` (lines 114–134) as one atomic segment:
the response actions and the worker state it leaves behind (the source
assigns only to the local `serializedRecentTrades`, never to a field, so
the state passes through unchanged).  `aborted` is the value of
`res.aborted` during the segment; with no `await` in the body it is the
value at handler invocation, i.e. `false`. -/
def listRecentTradesBody (marketNames : List String) (st : MinionState)
    (aborted : Bool) (marketName : String) : List HttpAction × MinionState :=
  match validateMarketName marketNames marketName with
  | some error =>
    ([HttpAction.writeHeader "content-type" "application/json",
      HttpAction.writeStatus "400",
      HttpAction.endError error], st)
  | none =>
    let serialized := serializeRecentTrades st marketName
    (if aborted then []
     else [HttpAction.writeHeader "content-type" "application/json",
           HttpAction.endRaw serialized], st)

/-- `GET /v1/recent-trades/:market` under the event-loop abort model:
if the client aborted before the handler was invoked the transport never
runs it (no actions); otherwise the body runs atomically with
`res.aborted = false`. -/
def listRecentTrades (abortedBeforeHandler : Bool) (marketNames : List String)
    (st : MinionState) (marketName : String) : List HttpAction × MinionState :=
  if abortedBeforeHandler then ([], st)
  else listRecentTradesBody marketNames st false marketName

/-- The body of `_listMarkets` (lines 141–181).  `cached` is
`this._cachedListMarketsResponse`; `computed` stands for the
`JSON.stringify(markets, null, 2)` result of the awaited metadata loads
(owned by the external Market Metadata Loader collaborator).  On a cache
miss the body awaits, and `abortedDuringAwait` is the value `res.aborted`
may have acquired at that yield point; the final write is guarded by
`!res.aborted`.  On a cache hit there is no `await`, so `res.aborted` is
still `false` at the write.  Returns the actions and the new cache value
(the broadcast to sibling workers has no effect on this response). -/
def listMarketsBody (cached : Option String) (computed : String)
    (abortedDuringAwait : Bool) : List HttpAction × Option String :=
  match cached with
  | some response =>
    ([HttpAction.writeHeader "content-type" "application/json",
      HttpAction.endRaw response], some response)
  | none =>
    if abortedDuringAwait then ([], some computed)
    else
      ([HttpAction.writeHeader "content-type" "application/json",
        HttpAction.endRaw computed], some computed)

/-- `GET /v1/markets` under the event-loop abort model. -/
def listMarkets (abortedBeforeHandler : Bool) (abortedDuringAwait : Bool)
    (cached : Option String) (computed : String) : List HttpAction × Option String :=
  if abortedBeforeHandler then ([], cached)
  else listMarketsBody cached computed abortedDuringAwait

/-- The status line uWebSockets.js actually puts on the wire for a sequence
of response actions: the status line is flushed by the first `writeHeader`
(or by the terminating `end` when neither a status nor a header was
written), so only a `writeStatus` issued before any other action takes
effect; the default is `200 OK`, and a `writeStatus` arriving after the
status line has been flushed is ignored.  (An empty action list means no
response was written at all.) -/
def wireStatus : List HttpAction → String
  | HttpAction.writeStatus status :: _ => status
  | _ => "200 OK"

/-- A concrete trade event used to exhibit cache and memo behaviour. -/
def tradeEventBTC : MessageEnvelope :=
  ⟨"trade", "BTC/USDT", "T1", "2021-08-01T00:00:00.000Z", true⟩

/-! ## Helper lemmas: ring buffer -/

namespace CircularBuffer

theorem capacity_append {α : Type} (b : CircularBuffer α) (x : α) :
    (b.append x).capacity = b.capacity := rfl

theorem buf_append {α : Type} (b : CircularBuffer α) (x : α) :
    (b.append x).buf = (b.buf ++ [x]).drop ((b.buf ++ [x]).length - b.capacity) := rfl

theorem length_append_le {α : Type} (b : CircularBuffer α) (x : α) :
    (b.append x).buf.length ≤ b.capacity := by
  simp [buf_append, List.length_drop]
  omega

/-- Contents after a sequence of appends: the concatenation of the old
contents and the appended values, truncated to the last `capacity`
entries. -/
theorem buf_appendAll {α : Type} :
    ∀ (xs : List α) (b : CircularBuffer α), b.buf.length ≤ b.capacity →
      (b.appendAll xs).buf = (b.buf ++ xs).drop ((b.buf ++ xs).length - b.capacity)
  | [], b, h => by
      simp [appendAll, Nat.sub_eq_zero_of_le h]
  | x :: xs, b, _ => by
      have hstep : b.appendAll (x :: xs) = (b.append x).appendAll xs := rfl
      have hle : (b.append x).buf.length ≤ (b.append x).capacity := length_append_le b x
      have ih := buf_appendAll xs (b.append x) hle
      rw [hstep, ih, capacity_append, buf_append]
      have hk : (b.buf ++ [x]).length - b.capacity ≤ (b.buf ++ [x]).length := by omega
      rw [← List.drop_append_of_le_length hk, List.drop_drop]
      rw [List.append_assoc, List.singleton_append]
      congr 1
      simp [List.length_drop, List.length_append]
      omega

theorem capacity_appendAll {α : Type} :
    ∀ (xs : List α) (b : CircularBuffer α), (b.appendAll xs).capacity = b.capacity
  | [], _ => rfl
  | x :: xs, b => by
      have hstep : b.appendAll (x :: xs) = (b.append x).appendAll xs := rfl
      rw [hstep, capacity_appendAll xs, capacity_append]

end CircularBuffer

/-! ## Helper lemmas: rate limiter -/

theorem acceptedCount_cons (b : Bool) (rest : List Bool) :
    acceptedCount (b :: rest) = (if b = false then 1 else 0) + acceptedCount rest := by
  cases b with
  | false =>
    simp [acceptedCount, List.filter]
    omega
  | true => simp [acceptedCount, List.filter]

theorem rateLimitCall_sameWindow (limit w : Nat) (c : Nat) :
    rateLimitCall limit w ⟨some w, c⟩ = (decide (c + 1 > limit), ⟨some w, c + 1⟩) := by
  simp [rateLimitCall]

/-- State after `n` further calls whose window matches the stored one:
the stored window is unchanged and the counter has increased by `n`. -/
theorem rateLimitRun_state_sameWindow (limit w : Nat) :
    ∀ (n c : Nat), (rateLimitRun limit (List.replicate n w) ⟨some w, c⟩).2 = ⟨some w, c + n⟩
  | 0, _ => rfl
  | n + 1, c => by
      rw [List.replicate_succ]
      show (rateLimitRun limit (List.replicate n w) (rateLimitCall limit w ⟨some w, c⟩).2).2 = _
      rw [rateLimitCall_sameWindow]
      rw [rateLimitRun_state_sameWindow limit w n (c + 1)]
      congr 1
      omega

/-- With the stored window already equal to `w` and the counter at `c`, at
most `limit - c` of any further same-window calls are accepted. -/
theorem rateLimitRun_accepted_sameWindow (limit w : Nat) :
    ∀ (n c : Nat), acceptedCount (rateLimitRun limit (List.replicate n w) ⟨some w, c⟩).1 ≤ limit - c
  | 0, _ => by simp [rateLimitRun, acceptedCount]
  | n + 1, c => by
      rw [List.replicate_succ]
      show acceptedCount ((rateLimitCall limit w ⟨some w, c⟩).1 ::
        (rateLimitRun limit (List.replicate n w) (rateLimitCall limit w ⟨some w, c⟩).2).1) ≤ _
      rw [rateLimitCall_sameWindow]
      rw [acceptedCount_cons]
      have ih := rateLimitRun_accepted_sameWindow limit w n (c + 1)
      by_cases hc : c + 1 > limit
      · have hb : decide (c + 1 > limit) = true := by simpa using hc
        rw [hb]
        simp only [Bool.true_eq_false, if_false]
        omega
      · have hb : decide (c + 1 > limit) = false := by simpa using hc
        rw [hb]
        simp only [if_true]
        omega

/-- At most `limit` calls are accepted within one window, from any
starting state. -/
theorem rateLimitRun_accepted_le (limit w : Nat) (hlimit : 1 ≤ limit) :
    ∀ (n : Nat) (ws : RateLimitState),
      acceptedCount (rateLimitRun limit (List.replicate n w) ws).1 ≤ limit
  | 0, _ => by simp [rateLimitRun, acceptedCount]
  | n + 1, ws => by
      rw [List.replicate_succ]
      show acceptedCount ((rateLimitCall limit w ws).1 ::
        (rateLimitRun limit (List.replicate n w) (rateLimitCall limit w ws).2).1) ≤ _
      by_cases hlast : ws.last = some w
      · have hws : ws = ⟨some w, ws.count⟩ := by cases ws; simp_all
        rw [hws, rateLimitCall_sameWindow, acceptedCount_cons]
        have ih := rateLimitRun_accepted_sameWindow limit w n (ws.count + 1)
        by_cases hc : ws.count + 1 > limit
        · have hb : decide (ws.count + 1 > limit) = true := by simpa using hc
          rw [hb]
          simp only [Bool.true_eq_false, if_false]
          omega
        · have hb : decide (ws.count + 1 > limit) = false := by simpa using hc
          rw [hb]
          simp only [if_true]
          omega
      · have hcall : rateLimitCall limit w ws = (false, ⟨some w, 1⟩) := by
          simp [rateLimitCall, hlast]
        rw [hcall, acceptedCount_cons]
        have ih := rateLimitRun_accepted_sameWindow limit w n 1
        simp only [if_true]
        omega

/-- After at least one call in window `w`, the stored window is `w` and the
counter is at least the number of calls made. -/
theorem rateLimitRun_final_count (limit w : Nat) :
    ∀ (n : Nat) (ws : RateLimitState), 1 ≤ n →
      ∃ c, (rateLimitRun limit (List.replicate n w) ws).2 = ⟨some w, c⟩ ∧ n ≤ c
  | 0, _, h => by omega
  | n + 1, ws, _ => by
      rw [List.replicate_succ]
      show ∃ c, (rateLimitRun limit (List.replicate n w) (rateLimitCall limit w ws).2).2 = _ ∧ _
      by_cases hlast : ws.last = some w
      · have hws : ws = ⟨some w, ws.count⟩ := by cases ws; simp_all
        rw [hws, rateLimitCall_sameWindow]
        refine ⟨ws.count + 1 + n, ?_, ?_⟩
        · exact rateLimitRun_state_sameWindow limit w n (ws.count + 1)
        · omega
      · have hcall : rateLimitCall limit w ws = (false, ⟨some w, 1⟩) := by
          simp [rateLimitCall, hlast]
        rw [hcall]
        exact ⟨1 + n, rateLimitRun_state_sameWindow limit w n 1, by omega⟩

/-! ## Claim theorems -/

/-- **C3.** The rate limiter is a fixed-window counter: a call whose stored
window differs from the current global window is allowed and resets the
connection state to `(currentWindow, 1)`; a call in the stored window
increments the counter and is allowed iff the incremented count is at most
`limit`.  Consequently (for the meaningful configurations `1 ≤ limit`; the
worker uses `limit = 50`) at most `limit` calls per connection are accepted
within one window, the `(limit+1)`-th call in the same window is always
rejected, and a call in the following window is allowed again. -/
theorem rateLimit_fixed_window :
    (∀ (limit now : Nat) (ws : RateLimitState), ws.last ≠ some now →
      rateLimitCall limit now ws = (false, ⟨some now, 1⟩)) ∧
    (∀ (limit now : Nat) (ws : RateLimitState), ws.last = some now →
      rateLimitCall limit now ws = (decide (ws.count + 1 > limit), ⟨some now, ws.count + 1⟩)) ∧
    (∀ (limit now : Nat) (ws : RateLimitState), ws.last = some now →
      ((rateLimitCall limit now ws).1 = false ↔ ws.count + 1 ≤ limit)) ∧
    (∀ (limit w n : Nat) (ws : RateLimitState), 1 ≤ limit →
      acceptedCount (rateLimitRun limit (List.replicate n w) ws).1 ≤ limit) ∧
    (∀ (limit w : Nat) (ws : RateLimitState), 1 ≤ limit →
      (rateLimitCall limit w (rateLimitRun limit (List.replicate limit w) ws).2).1 = true) ∧
    (∀ (limit w : Nat) (ws : RateLimitState), ws.last = some w →
      (rateLimitCall limit (w + 1) ws).1 = false) := by
  refine ⟨?_, ?_, ?_, ?_, ?_, ?_⟩
  · intro limit now ws h
    simp [rateLimitCall, h]
  · intro limit now ws h
    cases ws with
    | mk last count =>
      cases h
      exact rateLimitCall_sameWindow limit now count
  · intro limit now ws h
    cases ws with
    | mk last count =>
      cases h
      rw [rateLimitCall_sameWindow]
      simp
  · intro limit w n ws hlimit
    exact rateLimitRun_accepted_le limit w hlimit n ws
  · intro limit w ws hlimit
    obtain ⟨c, hstate, hc⟩ := rateLimitRun_final_count limit w limit ws hlimit
    rw [hstate, rateLimitCall_sameWindow]
    simpa using by omega
  · intro limit w ws h
    have hne : w ≠ w + 1 := by omega
    simp [rateLimitCall, h, hne]

/-- Witness for C3 at the worker's configuration `limit = 50`,
`interval = 1000 ms`: a fresh connection's first call in window 0 is
allowed; the second call in the same window is allowed because `2 ≤ 50`;
across 51 calls in window 0 at most 50 are accepted; the 51st call in
window 0 is rejected; a call in window 1 from a saturated window-0 state is
allowed again. -/
theorem rateLimit_fixed_window_witness :
    rateLimitCall 50 0 RateLimitState.fresh = (false, ⟨some 0, 1⟩) ∧
    rateLimitCall 50 0 ⟨some 0, 1⟩ = (decide (1 + 1 > 50), ⟨some 0, 1 + 1⟩) ∧
    ((rateLimitCall 50 0 ⟨some 0, 1⟩).1 = false ↔ 1 + 1 ≤ 50) ∧
    acceptedCount (rateLimitRun 50 (List.replicate 51 0) RateLimitState.fresh).1 ≤ 50 ∧
    (rateLimitCall 50 0 (rateLimitRun 50 (List.replicate 50 0) RateLimitState.fresh).2).1 = true ∧
    (rateLimitCall 50 (0 + 1) ⟨some 0, 50⟩).1 = false :=
  ⟨rateLimit_fixed_window.1 50 0 RateLimitState.fresh (by decide),
   rateLimit_fixed_window.2.1 50 0 ⟨some 0, 1⟩ rfl,
   rateLimit_fixed_window.2.2.1 50 0 ⟨some 0, 1⟩ rfl,
   rateLimit_fixed_window.2.2.2.1 50 0 51 RateLimitState.fresh (by decide),
   rateLimit_fixed_window.2.2.2.2.1 50 0 RateLimitState.fresh (by decide),
   rateLimit_fixed_window.2.2.2.2.2 50 0 ⟨some 0, 50⟩ rfl⟩

set_option maxRecDepth 10000 in
/-- **C5.** The recent-trades ring buffer (capacity 100, as created by
`processMessage`) never holds more than 100 entries; eviction is FIFO in
insertion order: after inserting any sequence the contents are exactly the
last 100 inserted values, in order; in particular after inserting 150
trades `t1..t150` into a fresh buffer, reading it yields exactly
`t51..t150` in insertion order. -/
theorem recentTrades_buffer_fifo :
    (∀ xs : List String, (((CircularBuffer.empty String 100).appendAll xs).items).length ≤ 100) ∧
    (∀ xs : List String,
      ((CircularBuffer.empty String 100).appendAll xs).items = xs.drop (xs.length - 100)) ∧
    ((CircularBuffer.empty String 100).appendAll
        ((List.range 150).map (fun i => "t" ++ toString (i + 1)))).items
      = (List.range 100).map (fun i => "t" ++ toString (i + 51)) := by
  have key : ∀ xs : List String,
      ((CircularBuffer.empty String 100).appendAll xs).items = xs.drop (xs.length - 100) := by
    intro xs
    have h := CircularBuffer.buf_appendAll xs (CircularBuffer.empty String 100)
      (by simp [CircularBuffer.empty])
    simpa [CircularBuffer.items, CircularBuffer.empty] using h
  refine ⟨?_, key, ?_⟩
  · intro xs
    rw [key]
    simp [List.length_drop]
    omega
  · rw [key]
    decide

/-- **C2.** The control-message validator applies its checks in the fixed
source order, short-circuiting on the first failure: parse failure yields
`InvalidPayload` (never an internal failure — the embedding is a total
function); an unrecognized `op` yields `InvalidOp` regardless of the later
fields; then an unrecognized `channel` yields `InvalidChannel`; then a
missing/non-array or empty `markets` yields `InvalidMarketsArray`; then
more than 40 markets yields `TooManyMarkets` — in particular a 41-entry
markets array is rejected with `TooManyMarkets` even when every entry is in
the registry; then the first market outside the registry is named in
`InvalidMarket`; and a request passing every check is returned as valid. -/
theorem validateRequestPayload_pipeline :
    (∀ (mn ch : List String), validateRequestPayload mn ch none = .invalid .invalidPayload) ∧
    (∀ (mn ch : List String) (p : SubRequest), p.op ∉ OPS →
      validateRequestPayload mn ch (some p) = .invalid (.invalidOp p.op)) ∧
    (∀ (mn ch : List String) (p : SubRequest), p.op ∈ OPS → p.channel ∉ ch →
      validateRequestPayload mn ch (some p) = .invalid (.invalidChannel p.channel)) ∧
    (∀ (mn ch : List String) (p : SubRequest), p.op ∈ OPS → p.channel ∈ ch →
      (p.markets = none ∨ p.markets = some []) →
      validateRequestPayload mn ch (some p) = .invalid .invalidMarketsArray) ∧
    (∀ (mn ch : List String) (p : SubRequest) (ms : List String), p.op ∈ OPS →
      p.channel ∈ ch → p.markets = some ms → ms.length > 40 →
      validateRequestPayload mn ch (some p) = .invalid .tooManyMarkets) ∧
    (∀ (mn ch : List String) (p : SubRequest) (pre post : List String) (m : String),
      p.op ∈ OPS → p.channel ∈ ch → p.markets = some (pre ++ m :: post) →
      (pre ++ m :: post).length ≤ 40 → (∀ x ∈ pre, x ∈ mn) → m ∉ mn →
      validateRequestPayload mn ch (some p) = .invalid (.invalidMarket m)) ∧
    (∀ (mn ch : List String) (p : SubRequest) (ms : List String), p.op ∈ OPS →
      p.channel ∈ ch → p.markets = some ms → ms ≠ [] → ms.length ≤ 40 →
      (∀ x ∈ ms, x ∈ mn) →
      validateRequestPayload mn ch (some p) = .valid p) := by
  refine ⟨?_, ?_, ?_, ?_, ?_, ?_, ?_⟩
  · intro mn ch
    rfl
  · intro mn ch p hop
    simp [validateRequestPayload, hop]
  · intro mn ch p hop hch
    simp [validateRequestPayload, hop, hch]
  · intro mn ch p hop hch hms
    rcases hms with hnone | hempty
    · simp [validateRequestPayload, hop, hch, hnone]
    · simp [validateRequestPayload, hop, hch, hempty]
  · intro mn ch p ms hop hch hms hlen
    have hne : ms.length ≠ 0 := by omega
    simp [validateRequestPayload, hop, hch, hms, hne, hlen]
  · intro mn ch p pre post m hop hch hms hlen hpre hm
    have hne : (pre ++ m :: post).length ≠ 0 := by simp
    have hgt : ¬ (pre ++ m :: post).length > 40 := by omega
    have h1 : List.find? (fun x => !decide (x ∈ mn)) pre = none := by
      rw [List.find?_eq_none]
      intro x hx
      simpa using hpre x hx
    have h2 : List.find? (fun x => !decide (x ∈ mn)) (m :: post) = some m := by
      have hp : (fun x => !decide (x ∈ mn)) m = true := by simpa using hm
      exact List.find?_cons_of_pos _ hp
    have hlen2 : pre.length + (post.length + 1) ≤ 40 := by
      simpa [List.length_append] using hlen
    simp [validateRequestPayload, hop, hch, hms, hne, hgt, h1, h2]
    exact hlen2
  · intro mn ch p ms hop hch hms hne hlen hall
    have hlen0 : ms.length ≠ 0 := by
      simpa [List.length_eq_zero] using hne
    have hgt : ¬ ms.length > 40 := by omega
    have hfind : List.find? (fun x => !decide (x ∈ mn)) ms = none := by
      rw [List.find?_eq_none]
      intro x hx
      simpa using hall x hx
    simp [validateRequestPayload, hop, hch, hms, hlen0, hgt, hfind]

/-- Witness for C2 with registry `["BTC/USDT", "ETH/USDT"]` and channels
`["trades", "level2"]`: unparseable bytes; bad op; bad channel; empty
markets; a 41-entry all-valid markets array rejected as `TooManyMarkets`;
an unknown market named in `InvalidMarket`; and a fully valid request. -/
theorem validateRequestPayload_pipeline_witness :
    validateRequestPayload ["BTC/USDT", "ETH/USDT"] ["trades", "level2"] none
      = .invalid .invalidPayload ∧
    validateRequestPayload ["BTC/USDT", "ETH/USDT"] ["trades", "level2"]
        (some ⟨"subscrib", "trades", some ["BTC/USDT"]⟩)
      = .invalid (.invalidOp "subscrib") ∧
    validateRequestPayload ["BTC/USDT", "ETH/USDT"] ["trades", "level2"]
        (some ⟨"subscribe", "tradez", some ["BTC/USDT"]⟩)
      = .invalid (.invalidChannel "tradez") ∧
    validateRequestPayload ["BTC/USDT", "ETH/USDT"] ["trades", "level2"]
        (some ⟨"subscribe", "trades", some []⟩)
      = .invalid .invalidMarketsArray ∧
    validateRequestPayload ["BTC/USDT", "ETH/USDT"] ["trades", "level2"]
        (some ⟨"subscribe", "trades", some (List.replicate 41 "BTC/USDT")⟩)
      = .invalid .tooManyMarkets ∧
    validateRequestPayload ["BTC/USDT", "ETH/USDT"] ["trades", "level2"]
        (some ⟨"subscribe", "trades", some (["BTC/USDT"] ++ "BTC/XXX" :: ["ETH/USDT"])⟩)
      = .invalid (.invalidMarket "BTC/XXX") ∧
    validateRequestPayload ["BTC/USDT", "ETH/USDT"] ["trades", "level2"]
        (some ⟨"subscribe", "trades", some ["BTC/USDT", "ETH/USDT"]⟩)
      = .valid ⟨"subscribe", "trades", some ["BTC/USDT", "ETH/USDT"]⟩ :=
  ⟨validateRequestPayload_pipeline.1 _ _,
   validateRequestPayload_pipeline.2.1 _ _ _ (by decide),
   validateRequestPayload_pipeline.2.2.1 _ _ _ (by decide) (by decide),
   validateRequestPayload_pipeline.2.2.2.1 _ _ _ (by decide) (by decide) (Or.inr rfl),
   validateRequestPayload_pipeline.2.2.2.2.1 _ _ _ _ (by decide) (by decide) rfl (by decide),
   validateRequestPayload_pipeline.2.2.2.2.2.1 _ _ _ _ _ _ (by decide) (by decide) rfl
     (by decide) (by decide) (by decide),
   validateRequestPayload_pipeline.2.2.2.2.2.2 _ _ _ _ (by decide) (by decide) rfl
     (by decide) (by decide) (by decide)⟩

/-- **C4.** For every data event processed by `processMessage` — including
events whose symbol is not in the Market Registry, which follow the same
total (never-throwing) path, since no step consults the registry: a
`quote` / `l2snapshot` / `l3snapshot` event overwrites the single
snapshot-cache slot for `(symbol, type)` with the event payload (last write
wins); a `trade` event appends the payload to that symbol's recent-trades
buffer (creating a capacity-100 buffer on first use); and the payload is
published to topic `type ++ "/" ++ symbol` if and only if the event's
`publish` flag is true. -/
theorem processMessage_ingestion :
    ∀ (st : MinionState) (message : MessageEnvelope),
      (message.type = "quote" →
        (processMessage st message).1.quotesSerialized message.symbol = some message.payload) ∧
      (message.type = "l2snapshot" →
        (processMessage st message).1.l2SnapshotsSerialized message.symbol
          = some message.payload) ∧
      (message.type = "l3snapshot" →
        (processMessage st message).1.l3SnapshotsSerialized message.symbol
          = some message.payload) ∧
      (message.type = "trade" →
        (processMessage st message).1.recentTrades message.symbol =
          some ((match st.recentTrades message.symbol with
                 | some b => b
                 | none => CircularBuffer.empty String 100).append message.payload) ∧
        (processMessage st message).1.recentTradesSerialized message.symbol = none) ∧
      ((processMessage st message).2 =
        if message.publish then
          [PublishEffect.publish (message.type ++ "/" ++ message.symbol) message.payload]
        else []) := by
  intro st message
  refine ⟨?_, ?_, ?_, ?_, ?_⟩
  · intro h
    simp [processMessage, setKey, h]
  · intro h
    simp [processMessage, setKey, h]
  · intro h
    simp [processMessage, setKey, h]
  · intro h
    constructor
    · simp [processMessage, setKey, h]
    · simp [processMessage, setKey, h]
  · simp [processMessage]

/-- Witness for C4: four concrete events for the unregistered symbol
`NEW/SYM` on the empty worker state (one per data type), plus a
`publish = false` event that produces no publish effect. -/
theorem processMessage_ingestion_witness :
    ((processMessage MinionState.initial
        ⟨"quote", "NEW/SYM", "Q1", "ts", true⟩).1.quotesSerialized "NEW/SYM" = some "Q1") ∧
    ((processMessage MinionState.initial
        ⟨"l2snapshot", "NEW/SYM", "L2", "ts", true⟩).1.l2SnapshotsSerialized "NEW/SYM"
      = some "L2") ∧
    ((processMessage MinionState.initial
        ⟨"l3snapshot", "NEW/SYM", "L3", "ts", true⟩).1.l3SnapshotsSerialized "NEW/SYM"
      = some "L3") ∧
    ((processMessage MinionState.initial
        ⟨"trade", "NEW/SYM", "T1", "ts", true⟩).1.recentTrades "NEW/SYM" =
      some ((match MinionState.initial.recentTrades "NEW/SYM" with
             | some b => b
             | none => CircularBuffer.empty String 100).append "T1")) ∧
    ((processMessage MinionState.initial ⟨"quote", "NEW/SYM", "Q1", "ts", true⟩).2 =
      if true then [PublishEffect.publish ("quote" ++ "/" ++ "NEW/SYM") "Q1"] else []) ∧
    ((processMessage MinionState.initial ⟨"quote", "NEW/SYM", "Q1", "ts", false⟩).2 =
      if false then [PublishEffect.publish ("quote" ++ "/" ++ "NEW/SYM") "Q1"] else []) :=
  ⟨(processMessage_ingestion MinionState.initial ⟨"quote", "NEW/SYM", "Q1", "ts", true⟩).1 rfl,
   (processMessage_ingestion MinionState.initial
      ⟨"l2snapshot", "NEW/SYM", "L2", "ts", true⟩).2.1 rfl,
   (processMessage_ingestion MinionState.initial
      ⟨"l3snapshot", "NEW/SYM", "L3", "ts", true⟩).2.2.1 rfl,
   ((processMessage_ingestion MinionState.initial
      ⟨"trade", "NEW/SYM", "T1", "ts", true⟩).2.2.2.1 rfl).1,
   (processMessage_ingestion MinionState.initial
      ⟨"quote", "NEW/SYM", "Q1", "ts", true⟩).2.2.2.2,
   (processMessage_ingestion MinionState.initial
      ⟨"quote", "NEW/SYM", "Q1", "ts", false⟩).2.2.2.2⟩

/-- The cached payload eligible for replay on subscribe for a
`(dataType, market)` pair, as the spec describes it: the snapshot-cache
entry for `quote` / `l2snapshot` / `l3snapshot`, and nothing for `trade`
or any other type. -/
def cachedReplayPayload (st : MinionState) (type market : String) : Option String :=
  if type = "quote" then st.quotesSerialized market
  else if type = "l2snapshot" then st.l2SnapshotsSerialized market
  else if type = "l3snapshot" then st.l3SnapshotsSerialized market
  else none

/-- The per-pair subscribe effects are exactly: subscribe to the topic,
then send the replay-eligible cached payload when one exists. -/
theorem perPairEffects_subscribe (st : MinionState) (type market : String) :
    perPairEffects st "subscribe" type market =
      WsEffect.subscribeTopic (type ++ "/" ++ market) ::
        ((cachedReplayPayload st type market).toList.map
          (fun p => WsEffect.send (.rawPayload p))) := by
  by_cases hq : type = "quote"
  · cases hcache : st.quotesSerialized market <;>
      simp [perPairEffects, cachedReplayPayload, hq, hcache]
  · by_cases h2 : type = "l2snapshot"
    · cases hcache : st.l2SnapshotsSerialized market <;>
        simp [perPairEffects, cachedReplayPayload, hq, h2, hcache]
    · by_cases h3 : type = "l3snapshot"
      · cases hcache : st.l3SnapshotsSerialized market <;>
          simp [perPairEffects, cachedReplayPayload, hq, h2, h3, hcache]
      · simp [perPairEffects, cachedReplayPayload, hq, h2, h3]

/-- **C1.** For every successful subscribe control message (not
rate-limited, validated as a `subscribe` request), the handler sends the
confirmation and then, for each `(dataType, market)` pair obtained by
expanding the channel through the configured table and crossing with the
requested markets, in order: subscribes to the topic and, exactly when the
data type is `quote`, `l2snapshot` or `l3snapshot` and a cached payload
exists for `(market, dataType)`, immediately sends that cached payload;
when no cached payload exists nothing is pushed, and for `trade` (or any
other type) no immediate push ever occurs regardless of cache state
(`cachedReplayPayload` is `none` there by definition, and the second
conjunct makes it explicit). -/
theorem subscribe_replay_from_cache :
    (∀ (st : MinionState) (request : SubRequest) (requestedTypesOf : String → List String)
      (ms : List String), request.op = "subscribe" → request.markets = some ms →
      handleRequestOk st false (.valid request) requestedTypesOf =
        WsEffect.send (.confirmation "subscribe" request.channel ms) ::
          (requestedTypesOf request.channel).flatMap (fun type =>
            ms.flatMap (fun market =>
              WsEffect.subscribeTopic (type ++ "/" ++ market) ::
                ((cachedReplayPayload st type market).toList.map
                  (fun p => WsEffect.send (.rawPayload p)))))) ∧
    (∀ (st : MinionState) (type market : String),
      type ≠ "quote" → type ≠ "l2snapshot" → type ≠ "l3snapshot" →
      perPairEffects st "subscribe" type market =
        [WsEffect.subscribeTopic (type ++ "/" ++ market)]) := by
  constructor
  · intro st request requestedTypesOf ms hop hms
    simp only [handleRequestOk, if_neg Bool.false_ne_true, hms, Option.getD_some, hop]
    congr 1
    simp only [subscriptionLoopEffects]
    congr 1
    funext type
    congr 1
    funext market
    rw [hop] at *
    exact perPairEffects_subscribe st type market
  · intro st type market hq h2 h3
    rw [perPairEffects_subscribe]
    simp [cachedReplayPayload, hq, h2, h3]

/-- Witness for C1: a subscribe request for channel `chan` (expanding to
`["quote", "trade"]`) and markets `["A", "B"]`, on a state whose quote
cache holds `QA` for market `A` and nothing for `B`: the `quote`/`A` pair
replays `QA`, the `quote`/`B` pair pushes nothing, and the `trade` pairs
push nothing although trades for `A` exist in the recent-trades buffer;
plus the explicit no-replay equation at type `trade`. -/
theorem subscribe_replay_from_cache_witness :
    handleRequestOk
        { MinionState.initial with
            quotesSerialized := fun s => if s = "A" then some "QA" else none,
            recentTrades := fun s =>
              if s = "A" then some ⟨100, ["TRADE-A"]⟩ else none }
        false
        (.valid ⟨"subscribe", "chan", some ["A", "B"]⟩)
        (fun c => if c = "chan" then ["quote", "trade"] else []) =
      [WsEffect.send (.confirmation "subscribe" "chan" ["A", "B"]),
       WsEffect.subscribeTopic "quote/A", WsEffect.send (.rawPayload "QA"),
       WsEffect.subscribeTopic "quote/B",
       WsEffect.subscribeTopic "trade/A",
       WsEffect.subscribeTopic "trade/B"] ∧
    perPairEffects MinionState.initial "subscribe" "trade" "A" =
      [WsEffect.subscribeTopic ("trade" ++ "/" ++ "A")] := by
  constructor
  · rw [subscribe_replay_from_cache.1 _ ⟨"subscribe", "chan", some ["A", "B"]⟩ _
      ["A", "B"] rfl rfl]
    decide
  · exact subscribe_replay_from_cache.2 MinionState.initial "trade" "A"
      (by decide) (by decide) (by decide)

/-- `List.count` distributes over `flatMap` as a sum of per-element
counts. -/
theorem count_flatMap_eq_sum {α β : Type} [DecidableEq β] (l : List α) (f : α → List β)
    (a : β) : ((l.flatMap f).count a) = (l.map (fun x => (f x).count a)).sum := by
  induction l with
  | nil => simp
  | cons x xs ih => simp [List.flatMap_cons, List.count_append, ih]

/-- Summing a scaled membership indicator counts occurrences. -/
theorem sum_map_if_eq {α : Type} [DecidableEq α] (l : List α) (a : α) (k : Nat) :
    (l.map (fun x => if x = a then k else 0)).sum = l.count a * k := by
  induction l with
  | nil => simp
  | cons x xs ih =>
    by_cases hx : x = a <;> simp [hx, ih, List.count_cons, Nat.succ_mul, Nat.add_comm]

/-- The number of replay sends of payload `q` in one per-pair iteration. -/
theorem count_perPair_send (st : MinionState) (type market q : String) :
    (perPairEffects st "subscribe" type market).count (WsEffect.send (.rawPayload q)) =
      if cachedReplayPayload st type market = some q then 1 else 0 := by
  rw [perPairEffects_subscribe]
  cases hcache : cachedReplayPayload st type market with
  | none => simp [hcache, List.count_cons]
  | some p =>
    by_cases hp : p = q <;> simp [hcache, hp, List.count_cons, List.count_singleton]

/-- **C10.** In a successful subscribe whose markets list contains the same
market `m` several times, each replay-eligible cached snapshot for `m` is
re-sent once per occurrence of `m` — replay sends are not deduplicated
across repeated market entries.  Precisely: if the cached payload `q` for
`(type, m)` identifies the pair uniquely among the requested
`(type', market')` pairs, then the subscription loop sends `q` exactly
`(count of type in requestedTypes) * (count of m in markets)` times. -/
theorem subscribe_duplicate_markets_replay :
    ∀ (st : MinionState) (type m q : String) (requestedTypes markets : List String),
      cachedReplayPayload st type m = some q →
      (∀ type' market', type' ∈ requestedTypes → market' ∈ markets →
        cachedReplayPayload st type' market' = some q → type' = type ∧ market' = m) →
      (subscriptionLoopEffects st "subscribe" requestedTypes markets).count
          (WsEffect.send (.rawPayload q))
        = requestedTypes.count type * markets.count m := by
  intro st type m q requestedTypes markets hq huniq
  rw [subscriptionLoopEffects, count_flatMap_eq_sum]
  have hinner : ∀ type' ∈ requestedTypes,
      ((markets.flatMap (fun market => perPairEffects st "subscribe" type' market)).count
          (WsEffect.send (.rawPayload q)))
        = if type' = type then markets.count m else 0 := by
    intro type' ht'
    rw [count_flatMap_eq_sum]
    by_cases hty : type' = type
    · have hmap : markets.map
          (fun market => (perPairEffects st "subscribe" type' market).count
            (WsEffect.send (.rawPayload q)))
          = markets.map (fun market => if market = m then 1 else 0) := by
        apply List.map_congr_left
        intro market hmarket
        rw [count_perPair_send]
        by_cases hm : market = m
        · simp [hm, hty, hq]
        · have : ¬ cachedReplayPayload st type' market = some q := by
            intro hc
            exact hm (huniq type' market ht' hmarket hc).2
          simp [this, hm]
      rw [hmap, hty, if_pos rfl]
      simpa using sum_map_if_eq markets m 1
    · have hmap : markets.map
          (fun market => (perPairEffects st "subscribe" type' market).count
            (WsEffect.send (.rawPayload q)))
          = markets.map (fun _ => 0) := by
        apply List.map_congr_left
        intro market hmarket
        rw [count_perPair_send]
        have : ¬ cachedReplayPayload st type' market = some q := by
          intro hc
          exact hty (huniq type' market ht' hmarket hc).1
        simp [this]
      rw [hmap, if_neg hty]
      simp
  have houter : requestedTypes.map
      (fun type' => ((markets.flatMap (fun market =>
        perPairEffects st "subscribe" type' market)).count (WsEffect.send (.rawPayload q))))
      = requestedTypes.map (fun type' => if type' = type then markets.count m else 0) :=
    List.map_congr_left hinner
  rw [houter]
  exact sum_map_if_eq requestedTypes type (markets.count m)

/-- Witness for C10: requested types `["quote", "trade"]`, markets
`["A", "B", "A"]` with market `A` occurring twice, cached quote `QA` for
`A` only: the cached snapshot is sent exactly `1 * 2 = 2` times. -/
theorem subscribe_duplicate_markets_replay_witness :
    (subscriptionLoopEffects
        { MinionState.initial with
            quotesSerialized := fun s => if s = "A" then some "QA" else none }
        "subscribe" ["quote", "trade"] ["A", "B", "A"]).count
        (WsEffect.send (.rawPayload "QA"))
      = (["quote", "trade"] : List String).count "quote"
          * (["A", "B", "A"] : List String).count "A" :=
  subscribe_duplicate_markets_replay
    { MinionState.initial with
        quotesSerialized := fun s => if s = "A" then some "QA" else none }
    "quote" "A" "QA" ["quote", "trade"] ["A", "B", "A"] (by decide)
    (by
      intro type' market' ht hm hc
      fin_cases ht <;> fin_cases hm <;> revert hc <;> decide)

/-- **C7 (evaluation at the failing input).** The claim (and spec) require
`GET /recent-trades/:market` on an unregistered name to answer with HTTP
status 400 and the structured error body.  The source's invalid-market
path (lines 118–120) calls `res.writeHeader('content-type', ...)` *before*
`res.writeStatus('400')`; under uWebSockets.js the first `writeHeader`
flushes the default `200 OK` status line and the later `writeStatus` is
ignored, so the error body is actually sent with status 200: for
`GET /recent-trades/UNKNOWN` with registry `["BTC/USDT"]` the performed
actions are header–status–end in that order, whose `wireStatus` is
`200 OK`; reversing the first two calls (the evident intent, matching the
`400` literal the code passes) would have put `400` on the wire.  The
valid-market half of the claim does hold: a registered market with no
recorded trades is answered with exactly `[]`, and after one `T1` trade
with `[T1]`. -/
theorem listRecentTrades_error_status_not_sent :
    (listRecentTrades false ["BTC/USDT"] MinionState.initial "UNKNOWN").1 =
      [HttpAction.writeHeader "content-type" "application/json",
       HttpAction.writeStatus "400",
       HttpAction.endError (.invalidMarket "UNKNOWN")] ∧
    wireStatus (listRecentTrades false ["BTC/USDT"] MinionState.initial "UNKNOWN").1
      = "200 OK" ∧
    wireStatus
        [HttpAction.writeStatus "400",
         HttpAction.writeHeader "content-type" "application/json",
         HttpAction.endError (.invalidMarket "UNKNOWN")]
      = "400" ∧
    (listRecentTrades false ["BTC/USDT"] MinionState.initial "BTC/USDT").1 =
      [HttpAction.writeHeader "content-type" "application/json",
       HttpAction.endRaw "[]"] ∧
    (listRecentTrades false ["BTC/USDT"]
        (processMessage MinionState.initial tradeEventBTC).1 "BTC/USDT").1 =
      [HttpAction.writeHeader "content-type" "application/json",
       HttpAction.endRaw "[T1]"] := by
  refine ⟨?_, rfl, rfl, ?_, ?_⟩ <;> decide

/-- **C6.** For both HTTP endpoints, a client abort that happens before the
response is ready suppresses every response write, on every execution path
(the invalid-market error path included), and causes no error — the
handlers are total.  Abort delivery points follow the single-threaded
event-loop model described above: a request aborted before its handler is
invoked produces no actions at all (both endpoints, hence also the
error/invalid-market path of `/recent-trades`); and on the only path where
the response is not ready synchronously — the `/markets` cache miss, which
awaits the metadata loader — an abort delivered during the await suppresses
the write. -/
theorem http_abort_suppresses_writes :
    (∀ (mn : List String) (st : MinionState) (marketName : String),
      (listRecentTrades true mn st marketName).1 = []) ∧
    (∀ (abortedDuringAwait : Bool) (cached : Option String) (computed : String),
      (listMarkets true abortedDuringAwait cached computed).1 = []) ∧
    (∀ (computed : String), (listMarkets false true none computed).1 = []) := by
  refine ⟨?_, ?_, ?_⟩
  · intro mn st marketName
    rfl
  · intro abortedDuringAwait cached computed
    rfl
  · intro computed
    rfl

/-- **C9.** Error propagation policy of the control-message handler: every
validation-kind failure — the rate limiter included — produces exactly one
structured error message sent to the originating connection, with no close
effect, so the connection stays open for subsequent messages (the handler
holds no per-connection state beyond the rate-limit counters); whereas a
run of the handler body that raises any exception is caught and answered by
exactly one `ws.end(1011, generic message)` closing only that connection —
every effect in the model acts on the originating connection alone, so
nothing propagates to other connections or the process. -/
theorem handleSubscriptionRequest_error_policy :
    (∀ (st : MinionState) (validation : ValidationResult)
      (requestedTypesOf : String → List String),
      handleRequestOk st true validation requestedTypesOf =
        [WsEffect.send .rateLimitError]) ∧
    (∀ (st : MinionState) (error : ValidationError)
      (requestedTypesOf : String → List String),
      handleRequestOk st false (.invalid error) requestedTypesOf =
        [WsEffect.send (.validationError error)]) ∧
    (∀ (effects : List WsEffect), handleSubscriptionRequest (.ok effects) = effects) ∧
    (∀ (err : String), handleSubscriptionRequest (.error err) =
      [WsEffect.endConn 1011 "Subscription request internal error"]) := by
  refine ⟨?_, ?_, ?_, ?_⟩
  · intro st validation requestedTypesOf
    rfl
  · intro st error requestedTypesOf
    rfl
  · intro effects
    rfl
  · intro err
    rfl

/-- **C8 (evaluation at the failing input).** After appending a trade for
`BTC/USDT`, the memo slot `_recentTradesSerialized["BTC/USDT"]` is unset;
a `GET /recent-trades/BTC-USDT` read rebuilds the serialized array `[T1]`
for its response, but — because lines 124–129 assign only the local
variable `serializedRecentTrades` and never write the rebuilt string back
to `this._recentTradesSerialized` — the memo slot is still unset after the
read, so the claimed "memo again holds the serialized form and subsequent
reads reuse it" does not hold: every read after an append recomputes.  (In
fact no code path ever assigns a string to `_recentTradesSerialized`; its
only write, line 213, stores `undefined`.) -/
theorem recentTrades_memo_never_repopulated :
    ((processMessage MinionState.initial tradeEventBTC).1.recentTradesSerialized "BTC/USDT"
      = none) ∧
    ((listRecentTrades false ["BTC/USDT"]
        (processMessage MinionState.initial tradeEventBTC).1 "BTC/USDT").1 =
      [HttpAction.writeHeader "content-type" "application/json",
       HttpAction.endRaw "[T1]"]) ∧
    ((listRecentTrades false ["BTC/USDT"]
        (processMessage MinionState.initial tradeEventBTC).1
        "BTC/USDT").2.recentTradesSerialized "BTC/USDT" = none) ∧
    serializeRecentTrades (processMessage MinionState.initial tradeEventBTC).1 "BTC/USDT"
      = "[T1]" := by
  refine ⟨rfl, ?_, rfl, ?_⟩ <;> decide

end SerumVial

